import Mathlib

/-!
Verification of the Usage Report Engine of the electricity-consumption
dashboard (`electricity_dashboard.py`).

The program manipulates an in-memory table of usage records with four
fields (Month, UnitName, UnitsConsumed, Cost).  We embed the table as a
list of records whose numeric fields are rationals, the data-frame view
(column names plus records) as `Frame`, and the CSV text layer as lists
of characters.  Pandas' group-by (which sorts group keys) and the
categorical month sort are embedded with an explicit stable insertion
sort; the sample-data generator is parameterised by its random draws.
-/

/-- One row of the usage table: fields Month, UnitName, UnitsConsumed, Cost
(`electricity_dashboard.py` lines 44-49, 90-95). -/
structure UsageRecord where
  month : String
  unitName : String
  unitsConsumed : ℚ
  cost : ℚ
deriving DecidableEq

/-- `required_columns = ["Month", "UnitName", "UnitsConsumed", "Cost"]` (line 113). -/
def required_columns : List String := ["Month", "UnitName", "UnitsConsumed", "Cost"]

/-- The fixed month list used by the sample generator (lines 31-32). -/
def months : List String :=
  ["January", "February", "March", "April", "May", "June",
   "July", "August", "September", "October", "November", "December"]

/-- The five unit labels of the sample generator (line 33). -/
def units : List String := ["Kitchen", "Living Room", "Bedroom", "Office", "Garage"]

/-- The categorical month ordering (lines 164-165); same list as `months`. -/
def month_order : List String :=
  ["January", "February", "March", "April", "May", "June",
   "July", "August", "September", "October", "November", "December"]

/-- `total_units = df['UnitsConsumed'].sum()` (line 119). -/
def total_units (df : List UsageRecord) : ℚ := (df.map (·.unitsConsumed)).sum

/-- `total_cost = df['Cost'].sum()` (line 120). -/
def total_cost (df : List UsageRecord) : ℚ := (df.map (·.cost)).sum

/-- `avg_cost_per_unit = total_cost / total_units if total_units > 0 else 0` (line 121). -/
def avg_cost_per_unit (df : List UsageRecord) : ℚ :=
  if total_units df > 0 then total_cost df / total_units df else 0

/-- `num_departments = df['UnitName'].nunique()` (line 122): the number of
distinct unit names. -/
def num_departments (df : List UsageRecord) : ℕ := (df.map (·.unitName)).dedup.length

/-- Lexicographic comparison of character lists by code point, as Python
compares strings (used by pandas when sorting group keys). -/
def charsLe : List Char → List Char → Bool
  | [], _ => true
  | _ :: _, [] => false
  | a :: as, b :: bs =>
      if a.toNat < b.toNat then true
      else if b.toNat < a.toNat then false
      else charsLe as bs

/-- String comparison by code points (Python string order). -/
def strLe (a b : String) : Bool := charsLe a.data b.data

/-- Insert into a sorted list (kept before the first element it compares
at-or-below; equal keys keep their original relative order). -/
def insertLe {α : Type} (le : α → α → Bool) (a : α) : List α → List α
  | [] => [a]
  | b :: bs => if le a b then a :: b :: bs else b :: insertLe le a bs

/-- Stable insertion sort; embeds the sorting done by pandas `groupby`
(sorted keys) and `sort_values`. -/
def sortBy {α : Type} (le : α → α → Bool) (l : List α) : List α := l.foldr (insertLe le) []

/-- `df.groupby(key)[val].sum().reset_index()`: one row per distinct key
value, keys sorted, each paired with the sum of `val` over its group. -/
def group_sum (key : UsageRecord → String) (val : UsageRecord → ℚ)
    (df : List UsageRecord) : List (String × ℚ) :=
  (sortBy strLe (df.map key).dedup).map
    fun k => (k, ((df.filter fun r => key r = k).map val).sum)

/-- Position of a month name in `month_order`; 12 when unrecognized, so
unrecognized names sort after all recognized ones (as NaN categories do). -/
def monthIndex (m : String) : ℕ := month_order.indexOf m

/-- Comparison of aggregate rows by categorical month position (lines 166-167). -/
def monthLe (a b : String × ℚ) : Bool := monthIndex a.1 ≤ monthIndex b.1

/-- `monthly_data = df.groupby('Month')['UnitsConsumed'].sum().reset_index()`
followed by the categorical month sort (lines 161-167). -/
def monthly_data (df : List UsageRecord) : List (String × ℚ) :=
  sortBy monthLe (group_sum (·.month) (·.unitsConsumed) df)

/-- `monthly_cost = df.groupby('Month')['Cost'].sum().reset_index()` with the
same categorical month sort (lines 210-212). -/
def monthly_cost (df : List UsageRecord) : List (String × ℚ) :=
  sortBy monthLe (group_sum (·.month) (·.cost) df)

/-- `unit_data = df.groupby('UnitName')['UnitsConsumed'].sum().reset_index()
.sort_values('UnitsConsumed', ascending=True)` (line 186). -/
def unit_data (df : List UsageRecord) : List (String × ℚ) :=
  sortBy (fun a b => a.2 ≤ b.2) (group_sum (·.unitName) (·.unitsConsumed) df)

/-- `unit_cost = df.groupby('UnitName')['Cost'].sum().reset_index()` (line 227). -/
def unit_cost (df : List UsageRecord) : List (String × ℚ) :=
  group_sum (·.unitName) (·.cost) df

/-- Python's `round` to an integer: round half to even (banker's rounding). -/
def round_half_even (q : ℚ) : ℤ :=
  if Int.fract q < 1/2 then ⌊q⌋
  else if 1/2 < Int.fract q then ⌊q⌋ + 1
  else if ⌊q⌋ % 2 = 0 then ⌊q⌋ else ⌊q⌋ + 1

/-- Python's `round(x, 2)` on a rational. -/
def round2 (q : ℚ) : ℚ := (round_half_even (q * 100) : ℚ) / 100

/-- `create_sample_data` (lines 29-51), parameterised by the random draws:
`(draw k).1` is the normal draw for `base_consumption` and `(draw k).2` the
uniform draw for `cost_per_unit` of the k-th (month, unit) pair.  One record
per pair: `consumption = max(50, base_consumption)`,
`cost = consumption * cost_per_unit`, both stored rounded to 2 decimals. -/
def create_sample_data (draw : ℕ → ℚ × ℚ) : List UsageRecord :=
  months.enum.flatMap fun mi =>
    units.enum.map fun ui =>
      let k := mi.1 * units.length + ui.1
      let base_consumption := (draw k).1
      let cost_per_unit := (draw k).2
      let consumption := max 50 base_consumption
      let cost := consumption * cost_per_unit
      { month := mi.2, unitName := ui.2,
        unitsConsumed := round2 consumption, cost := round2 cost }

/-- The two-row example table of the specification:
`("January","Kitchen",100.0,15.0)` and `("January","Office",50.0,7.5)`. -/
def example_table : List UsageRecord :=
  [⟨"January", "Kitchen", 100, 15⟩, ⟨"January", "Office", 50, 7.5⟩]

/-- The manual-entry form handler (lines 83-96): when the form is submitted
and the unit name is non-empty (Python truthiness of the string), the record
is appended to the session's accumulated list, which is created on first
use; otherwise the session state is untouched. -/
def manual_entry_submit (state : Option (List UsageRecord)) (submitted : Bool)
    (month unit_name : String) (units_consumed cost : ℚ) : Option (List UsageRecord) :=
  if submitted ∧ unit_name ≠ "" then
    some (state.getD [] ++ [⟨month, unit_name, units_consumed, cost⟩])
  else state

/-- A data frame as the dashboard sees it: its column names and its rows.
Rows are kept as usage records; `cols` is `df.columns`. -/
structure Frame where
  cols : List String
  recs : List UsageRecord
deriving DecidableEq

/-- The four KPI scalars of lines 119-122. -/
def compute_kpis (df : List UsageRecord) : ℚ × ℚ × ℚ × ℕ :=
  (total_units df, total_cost df, avg_cost_per_unit df, num_departments df)

/-- The frame produced by `create_sample_data`: its columns are exactly the
four required names (the dict keys of lines 44-49). -/
def sample_frame (draw : ℕ → ℚ × ℚ) : Frame :=
  ⟨required_columns, create_sample_data draw⟩

/-- The upload branch (lines 61-70): a successful `pd.read_csv` yields the
parsed frame; on a parse exception an error is shown in the sidebar (the
`Bool` records that this warning was surfaced) and the sample table is
substituted. -/
def load_uploaded (res : Except String Frame) (draw : ℕ → ℚ × ℚ) : Frame × Bool :=
  match res with
  | Except.ok f => (f, false)
  | Except.error _ => (sample_frame draw, true)

/-- The validation of lines 113-116 followed by the KPI computation of lines
119-122: when some required column is absent, `st.error` reports the list of
required column names (the message joins `required_columns`) and `st.stop()`
halts, so no aggregate is produced; otherwise the KPIs are computed. -/
def run_dashboard (f : Frame) : Except (List String) (ℚ × ℚ × ℚ × ℕ) :=
  if required_columns.all fun c => f.cols.contains c then
    Except.ok (compute_kpis f.recs)
  else
    Except.error required_columns

/-- Does a CSV field need quoting (contains the delimiter, the quote
character or a line break)? -/
def needsQuote (cell : List Char) : Bool :=
  cell.any fun c => c = ',' || c = '"' || c = '\n'

/-- Double every quote character (CSV quote escaping). -/
def escQ : List Char → List Char
  | [] => []
  | c :: cs => if c = '"' then '"' :: '"' :: escQ cs else c :: escQ cs

/-- Write one CSV field with minimal quoting, as `to_csv` does. -/
def encodeCell (cell : List Char) : List Char :=
  if needsQuote cell then '"' :: (escQ cell ++ ['"']) else cell

/-- Write one CSV record: fields joined by commas. -/
def encodeRow : List (List Char) → List Char
  | [] => []
  | [cell] => encodeCell cell
  | cell :: cs => encodeCell cell ++ ',' :: encodeRow cs

/-- `df.to_csv(index=False)` at the cell level (line 270): every record,
the header row included, on its own newline-terminated line. -/
def to_csv (rows : List (List (List Char))) : List Char :=
  (rows.map fun r => encodeRow r ++ ['\n']).flatten

/-- The CSV reading loop (`pd.read_csv` on the emitted text): a character at
a time, tracking whether we are inside a quoted field, the current field,
the current record and the finished records. -/
def csvAux : Bool → List Char → List Char → List (List Char) →
    List (List (List Char)) → List (List (List Char))
  | inQ, [], f, r, rows =>
      if inQ = false ∧ f = [] ∧ r = [] then rows else rows ++ [r ++ [f]]
  | true, c :: rest, f, r, rows =>
      if c = '"' then
        if rest.head? = some '"' then csvAux true rest.tail (f ++ ['"']) r rows
        else csvAux false rest f r rows
      else csvAux true rest (f ++ [c]) r rows
  | false, c :: rest, f, r, rows =>
      if c = ',' then csvAux false rest [] (r ++ [f]) rows
      else if c = '\n' then csvAux false rest [] [] (rows ++ [r ++ [f]])
      else if c = '"' ∧ f = [] then csvAux true rest [] r rows
      else csvAux false rest (f ++ [c]) r rows
termination_by _ s _ _ _ => s.length
decreasing_by all_goals simp [List.length_tail] <;> omega

/-- Parse CSV text back into its records of fields. -/
def read_csv (s : List Char) : List (List (List Char)) := csvAux false s [] [] []

/-- The header cells of the exported CSV: the four field names. -/
def header_cells : List (List Char) := required_columns.map String.data

/-- A rational value as the characters of its cell in the exported CSV. -/
def ratChars (q : ℚ) : List Char := (toString q).data

/-- The four cells of one record, in the field order of the table. -/
def record_cells (r : UsageRecord) : List (List Char) :=
  [r.month.data, r.unitName.data, ratChars r.unitsConsumed, ratChars r.cost]

/-- `csv_data = df.to_csv(index=False)` (line 270): header row then one row
per record. -/
def df_to_csv (df : List UsageRecord) : List Char :=
  to_csv (header_cells :: df.map record_cells)

/-- `unit_data.nlargest(3, 'UnitsConsumed')` (line 292): the three rows with
largest summed consumption, in descending order. -/
def nlargest3 (l : List (String × ℚ)) : List (String × ℚ) :=
  (sortBy (fun a b => b.2 ≤ a.2) l).take 3

/-- `monthly_data.loc[monthly_data['UnitsConsumed'].idxmax()]` (line 295):
the first row attaining the maximal value. -/
def argmaxRow : List (String × ℚ) → Option (String × ℚ)
  | [] => none
  | p :: ps =>
      match argmaxRow ps with
      | none => some p
      | some q => if q.2 > p.2 then some q else some p

/-- `monthly_data.loc[monthly_data['UnitsConsumed'].idxmin()]` (line 296):
the first row attaining the minimal value. -/
def argminRow : List (String × ℚ) → Option (String × ℚ)
  | [] => none
  | p :: ps =>
      match argminRow ps with
      | none => some p
      | some q => if q.2 < p.2 then some q else some p

/-- The state of one report generation: the working table `df` and every
view derived from it during a run of the script (KPIs, the four grouped
views, the CSV export, and the summary-report data). -/
structure DashState where
  df : List UsageRecord
  kpis : ℚ × ℚ × ℚ × ℕ
  monthly : List (String × ℚ)
  monthlyCost : List (String × ℚ)
  unitData : List (String × ℚ)
  unitCost : List (String × ℚ)
  csv : List Char
  report : List (String × ℚ) × Option (String × ℚ) × Option (String × ℚ)
deriving DecidableEq

/-- State at the top of the script: the loaded table, no derived views yet. -/
def init_state (df : List UsageRecord) : DashState :=
  ⟨df, (0, 0, 0, 0), [], [], [], [], [], ([], none, none)⟩

/-- Lines 119-122: compute the KPIs. -/
def step_kpis (s : DashState) : DashState := { s with kpis := compute_kpis s.df }

/-- Lines 161-167: build (and categorically sort) the monthly units view. -/
def step_monthly (s : DashState) : DashState := { s with monthly := monthly_data s.df }

/-- Lines 210-212: build the monthly cost view. -/
def step_monthly_cost (s : DashState) : DashState :=
  { s with monthlyCost := monthly_cost s.df }

/-- Line 186: build the per-unit consumption view. -/
def step_unit_data (s : DashState) : DashState := { s with unitData := unit_data s.df }

/-- Line 227: build the per-unit cost view. -/
def step_unit_cost (s : DashState) : DashState := { s with unitCost := unit_cost s.df }

/-- Line 270: serialize the table for the CSV download. -/
def step_csv (s : DashState) : DashState := { s with csv := df_to_csv s.df }

/-- Lines 280-297: assemble the summary-report data (top-3 consuming units,
highest- and lowest-consumption months) from the derived views. -/
def step_report (s : DashState) : DashState :=
  { s with report := (nlargest3 s.unitData, argmaxRow s.monthly, argminRow s.monthly) }

/-- One full report generation pass over a loaded table, in script order. -/
def generate_report (df : List UsageRecord) : DashState :=
  step_report (step_csv (step_unit_cost (step_unit_data
    (step_monthly_cost (step_monthly (step_kpis (init_state df)))))))

/-- C3: on the two-row example table the KPI calculator returns
`total_units = 150`, `total_cost = 22.5`, `avg_cost_per_unit = 0.15`,
`unit_count = 2`, and the monthly aggregates are the single rows
`("January", 150)` for units and `("January", 22.5)` for cost. -/
theorem kpi_example :
    total_units example_table = 150 ∧
    total_cost example_table = 22.5 ∧
    avg_cost_per_unit example_table = 0.15 ∧
    num_departments example_table = 2 ∧
    monthly_data example_table = [("January", 150)] ∧
    monthly_cost example_table = [("January", 22.5)] := by
  refine ⟨?_, ?_, ?_, ?_, ?_, ?_⟩ <;>
    simp [total_units, total_cost, avg_cost_per_unit, num_departments, example_table,
      monthly_data, monthly_cost, group_sum, sortBy, insertLe, monthLe, monthIndex,
      month_order, strLe, charsLe, List.dedup] <;>
    norm_num

/-- C4: `avg_cost_per_unit` equals `total_cost / total_units` when
`total_units > 0` and equals 0 when `total_units = 0` (the guarded division
is never taken with a zero divisor). -/
theorem avg_cost_per_unit_cases (df : List UsageRecord) :
    (total_units df > 0 → avg_cost_per_unit df = total_cost df / total_units df) ∧
    (total_units df = 0 → avg_cost_per_unit df = 0) := by
  constructor
  · intro h
    simp [avg_cost_per_unit, h]
  · intro h
    simp [avg_cost_per_unit, h]

/-- Witness for C4 at the example table (positive total) and the empty table
(zero total). -/
theorem avg_cost_per_unit_cases_witness :
    avg_cost_per_unit example_table = total_cost example_table / total_units example_table ∧
    avg_cost_per_unit [] = 0 := by
  constructor
  · exact (avg_cost_per_unit_cases example_table).1 (by norm_num [total_units, example_table])
  · exact (avg_cost_per_unit_cases []).2 (by norm_num [total_units])

/-- C6: `total_units` and `total_cost` are invariant under any permutation
of the table's rows. -/
theorem totals_perm_invariant (df df' : List UsageRecord) (h : df.Perm df') :
    total_units df = total_units df' ∧ total_cost df = total_cost df' := by
  constructor
  · simpa [total_units] using (h.map (·.unitsConsumed)).sum_eq
  · simpa [total_cost] using (h.map (·.cost)).sum_eq

/-- Witness for C6: the example table and its reversal. -/
theorem totals_perm_invariant_witness :
    total_units example_table = total_units example_table.reverse ∧
    total_cost example_table = total_cost example_table.reverse :=
  totals_perm_invariant example_table example_table.reverse
    (List.reverse_perm example_table).symm

/-- C10: a submitted manual entry is appended exactly when the unit name is
non-empty; an empty unit name leaves the accumulated session list unchanged. -/
theorem manual_entry_append_iff_nonempty (state : Option (List UsageRecord))
    (month unit_name : String) (units_consumed cost : ℚ) :
    (unit_name ≠ "" →
      manual_entry_submit state true month unit_name units_consumed cost =
        some (state.getD [] ++ [⟨month, unit_name, units_consumed, cost⟩])) ∧
    (unit_name = "" →
      manual_entry_submit state true month unit_name units_consumed cost = state) := by
  constructor
  · intro h
    simp [manual_entry_submit, h]
  · intro h
    simp [manual_entry_submit, h]

/-- Witness for C10: a "Kitchen" entry is appended to a fresh session; an
empty unit name changes nothing. -/
theorem manual_entry_append_iff_nonempty_witness :
    manual_entry_submit none true "January" "Kitchen" 100 15 =
      some [⟨"January", "Kitchen", 100, 15⟩] ∧
    manual_entry_submit none true "January" "" 100 15 = none := by
  constructor
  · exact (manual_entry_append_iff_nonempty none "January" "Kitchen" 100 15).1 (by decide)
  · exact (manual_entry_append_iff_nonempty none "January" "" 100 15).2 rfl

/-- Rounding half to even never goes below the floor. -/
theorem floor_le_round_half_even (q : ℚ) : ⌊q⌋ ≤ round_half_even q := by
  unfold round_half_even
  split_ifs <;> omega

/-- `round2` respects integer lower bounds. -/
theorem intCast_le_round2 {n : ℤ} {a : ℚ} (h : (n : ℚ) ≤ a) : (n : ℚ) ≤ round2 a := by
  have h1 : (100 * n : ℤ) ≤ ⌊a * 100⌋ := Int.le_floor.2 (by push_cast; linarith)
  have h2 : (100 * n : ℤ) ≤ round_half_even (a * 100) :=
    le_trans h1 (floor_le_round_half_even _)
  have h3 : ((100 * n : ℤ) : ℚ) ≤ (round_half_even (a * 100) : ℚ) := by exact_mod_cast h2
  unfold round2
  rw [le_div_iff₀ (by norm_num : (0:ℚ) < 100)]
  push_cast at h3 ⊢
  linarith

/-- C7: whatever the random draws (the uniform rate draw lying in
[0.10, 0.15]), the generated sample has exactly 60 rows, every
`units_consumed` is at least 50, every `cost` is non-negative, and each
record stores `round2 c` and `round2 (c * rate)` for some pre-rounding
consumption `c ≥ 50` and per-record rate in [0.10, 0.15]. -/
theorem create_sample_data_props (draw : ℕ → ℚ × ℚ)
    (hr : ∀ k, 0.10 ≤ (draw k).2 ∧ (draw k).2 ≤ 0.15) :
    (create_sample_data draw).length = 60 ∧
    ∀ rec ∈ create_sample_data draw,
      50 ≤ rec.unitsConsumed ∧ 0 ≤ rec.cost ∧
      ∃ c rate : ℚ, 0.10 ≤ rate ∧ rate ≤ 0.15 ∧ 50 ≤ c ∧
        rec.unitsConsumed = round2 c ∧ rec.cost = round2 (c * rate) := by
  constructor
  · rfl
  · intro rec hrec
    simp only [create_sample_data, List.mem_flatMap, List.mem_map] at hrec
    obtain ⟨mi, hmi, ui, hui, rfl⟩ := hrec
    set k := mi.1 * units.length + ui.1 with hk
    have hrate := hr k
    have hc : (50 : ℚ) ≤ max 50 (draw k).1 := le_max_left _ _
    refine ⟨?_, ?_, max 50 (draw k).1, (draw k).2, hrate.1, hrate.2, hc, rfl, rfl⟩
    · simpa using intCast_le_round2 (n := 50) (by exact_mod_cast hc)
    · have h0 : (0 : ℚ) ≤ max 50 (draw k).1 * (draw k).2 :=
        mul_nonneg (by linarith) (by linarith [hrate.1])
      simpa using intCast_le_round2 (n := 0) (by exact_mod_cast h0)

/-- Witness for C7: the constant draw (100, 1/8). -/
theorem create_sample_data_props_witness :
    (create_sample_data fun _ => (100, 1/8)).length = 60 ∧
    ∀ rec ∈ create_sample_data fun _ => (100, 1/8),
      50 ≤ rec.unitsConsumed ∧ 0 ≤ rec.cost ∧
      ∃ c rate : ℚ, 0.10 ≤ rate ∧ rate ≤ 0.15 ∧ 50 ≤ c ∧
        rec.unitsConsumed = round2 c ∧ rec.cost = round2 (c * rate) :=
  create_sample_data_props (fun _ => (100, 1/8)) (fun _ => by norm_num)

/-- C1: whenever some required column (Month, UnitName, UnitsConsumed, Cost)
is absent from the input frame, validation fails: the run produces an error
whose reported names include every missing required column, and no KPI
output is produced (processing halts with the error, no partial
aggregation). -/
theorem validation_missing_columns (f : Frame)
    (h : ∃ c ∈ required_columns, c ∉ f.cols) :
    ∃ reported, run_dashboard f = Except.error reported ∧
      (∀ c ∈ required_columns, c ∉ f.cols → c ∈ reported) ∧
      ∀ out, run_dashboard f ≠ Except.ok out := by
  obtain ⟨c, hc, hmem⟩ := h
  have hnot : ¬ ((required_columns.all fun c => f.cols.contains c) = true) := by
    simp only [List.all_eq_true]
    push_neg
    exact ⟨c, hc, by simpa using hmem⟩
  have hrun : run_dashboard f = Except.error required_columns := by
    unfold run_dashboard
    rw [if_neg hnot]
  refine ⟨required_columns, hrun, fun c hc _ => hc, ?_⟩
  intro out hout
  rw [hrun] at hout
  exact Except.noConfusion hout

/-- Witness for C1: a frame missing only the Cost column fails with an error
naming Cost, and yields no KPI output. -/
theorem validation_missing_columns_witness :
    ∃ reported,
      run_dashboard ⟨["Month", "UnitName", "UnitsConsumed"], []⟩ =
        Except.error reported ∧
      (∀ c ∈ required_columns,
        c ∉ (⟨["Month", "UnitName", "UnitsConsumed"], []⟩ : Frame).cols →
          c ∈ reported) ∧
      ∀ out, run_dashboard ⟨["Month", "UnitName", "UnitsConsumed"], []⟩ ≠
        Except.ok out :=
  validation_missing_columns ⟨["Month", "UnitName", "UnitsConsumed"], []⟩
    ⟨"Cost", by decide, by decide⟩

/-- C8: when the uploaded input fails to parse, the dashboard substitutes the
sample-data table as the working frame, surfaces a (non-fatal) warning, and
report generation continues: validation passes on the substituted frame and
the KPIs of the sample table are produced. -/
theorem parse_error_recovery (e : String) (draw : ℕ → ℚ × ℚ) :
    load_uploaded (Except.error e) draw = (sample_frame draw, true) ∧
    run_dashboard (sample_frame draw) =
      Except.ok (compute_kpis (create_sample_data draw)) := by
  constructor
  · rfl
  · simp [run_dashboard, sample_frame, required_columns]

/-- Reading an escaped quoted-field body consumes it (and the closing quote)
into the current field, provided the following text does not begin with
another quote. -/
theorem csvAux_quoted (cell : List Char) (l f : List Char) (r : List (List Char))
    (rows : List (List (List Char))) (hl : l.head? ≠ some '"') :
    csvAux true (escQ cell ++ '"' :: l) f r rows = csvAux false l (f ++ cell) r rows := by
  induction cell generalizing f with
  | nil =>
      have h1 : csvAux true ('"' :: l) f r rows = csvAux false l f r rows := by
        simp [csvAux, hl]
      simpa [escQ] using h1
  | cons c cs ih =>
      by_cases hc : c = '"'
      · subst hc
        have h1 : escQ ('"' :: cs) = '"' :: '"' :: escQ cs := by simp [escQ]
        rw [h1, List.cons_append, List.cons_append]
        have h2 : csvAux true ('"' :: '"' :: (escQ cs ++ '"' :: l)) f r rows =
            csvAux true (escQ cs ++ '"' :: l) (f ++ ['"']) r rows := by
          simp [csvAux]
        rw [h2, ih (f ++ ['"'])]
        simp
      · have h1 : escQ (c :: cs) = c :: escQ cs := by simp [escQ, hc]
        rw [h1, List.cons_append]
        have h2 : csvAux true (c :: (escQ cs ++ '"' :: l)) f r rows =
            csvAux true (escQ cs ++ '"' :: l) (f ++ [c]) r rows := by
          simp [csvAux, hc]
        rw [h2, ih (f ++ [c])]
        simp

/-- Reading an unquoted field body consumes it into the current field. -/
theorem csvAux_unquoted (cell l f : List Char) (r : List (List Char))
    (rows : List (List (List Char))) (hcell : needsQuote cell = false) :
    csvAux false (cell ++ l) f r rows = csvAux false l (f ++ cell) r rows := by
  induction cell generalizing f with
  | nil => simp
  | cons c cs ih =>
      have hget : ((¬c = ',' ∧ ¬c = '"') ∧ ¬c = '\n') ∧
          ∀ x ∈ cs, (¬x = ',' ∧ ¬x = '"') ∧ ¬x = '\n' := by
        simpa [needsQuote, not_or] using hcell
      have hcs : needsQuote cs = false := by
        simp only [needsQuote, List.any_eq_false]
        intro x hx
        simpa [not_or] using hget.2 x hx
      have hstep : csvAux false (c :: (cs ++ l)) f r rows =
          csvAux false (cs ++ l) (f ++ [c]) r rows := by
        simp [csvAux, hget.1.1.1, hget.1.1.2, hget.1.2]
      rw [List.cons_append, hstep, ih (f ++ [c]) hcs]
      simp

/-- Reading one minimally-quoted field at the start of a field position
consumes it, provided the following text does not begin with a quote. -/
theorem csvAux_cell (cell l : List Char) (r : List (List Char))
    (rows : List (List (List Char))) (hl : l.head? ≠ some '"') :
    csvAux false (encodeCell cell ++ l) [] r rows = csvAux false l cell r rows := by
  by_cases hq : needsQuote cell = true
  · have hshape : encodeCell cell ++ l = '"' :: (escQ cell ++ '"' :: l) := by
      simp [encodeCell, hq, List.append_assoc]
    have hstep : csvAux false ('"' :: (escQ cell ++ '"' :: l)) [] r rows =
        csvAux true (escQ cell ++ '"' :: l) [] r rows := by
      simp [csvAux]
    rw [hshape, hstep, csvAux_quoted cell l [] r rows hl]
    simp
  · have hq' : needsQuote cell = false := by simpa using hq
    rw [encodeCell, if_neg (by simp [hq'])]
    simpa using csvAux_unquoted cell l [] r rows hq'

/-- Reading one encoded record line appends the record and starts afresh. -/
theorem csvAux_row (row : List (List Char)) (l : List Char) (r : List (List Char))
    (rows : List (List (List Char))) (hrow : row ≠ []) :
    csvAux false (encodeRow row ++ '\n' :: l) [] r rows =
      csvAux false l [] [] (rows ++ [r ++ row]) := by
  induction row generalizing r with
  | nil => exact absurd rfl hrow
  | cons cell cs ih =>
      cases cs with
      | nil =>
          rw [encodeRow, csvAux_cell cell ('\n' :: l) r rows (by simp)]
          simp [csvAux]
      | cons cell2 cs2 =>
          rw [encodeRow]
          have hshape : (encodeCell cell ++ ',' :: encodeRow (cell2 :: cs2)) ++ '\n' :: l =
              encodeCell cell ++ ',' :: (encodeRow (cell2 :: cs2) ++ '\n' :: l) := by
            simp [List.append_assoc]
          rw [hshape, csvAux_cell cell _ r rows (by simp)]
          have hstep : csvAux false (',' :: (encodeRow (cell2 :: cs2) ++ '\n' :: l))
              cell r rows =
              csvAux false (encodeRow (cell2 :: cs2) ++ '\n' :: l) [] (r ++ [cell]) rows := by
            simp [csvAux]
          rw [hstep, ih (r ++ [cell]) (List.cons_ne_nil _ _)]
          simp
          simp

/-- Reading the serialized text of a list of non-empty records recovers them
all, appended to the already-finished records. -/
theorem csvAux_to_csv (rs : List (List (List Char)))
    (acc : List (List (List Char))) (h : ∀ row ∈ rs, row ≠ []) :
    csvAux false (to_csv rs) [] [] acc = acc ++ rs := by
  induction rs generalizing acc with
  | nil =>
      simp only [to_csv, List.map_nil, List.flatten_nil]
      simp [csvAux]
  | cons row rs' ih =>
      have hshape : to_csv (row :: rs') = encodeRow row ++ '\n' :: to_csv rs' := by
        simp [to_csv]
      rw [hshape, csvAux_row row (to_csv rs') [] acc (h row (by simp))]
      simp only [List.nil_append]
      rw [ih (acc ++ [row]) (fun r hr => h r (by simp [hr]))]
      simp

/-- C2: CSV round trip.  For every table, parsing the text emitted by the
CSV export (header row with the four field names, then one line per record
in field order) reconstructs exactly the header and the records' cells, in
the original row order. -/
theorem csv_round_trip (df : List UsageRecord) :
    read_csv (df_to_csv df) = header_cells :: df.map record_cells := by
  rw [read_csv, df_to_csv]
  rw [csvAux_to_csv (header_cells :: df.map record_cells) [] ?_]
  · simp
  · intro row hrow
    rcases List.mem_cons.1 hrow with h | h
    · subst h
      simp [header_cells, required_columns]
    · obtain ⟨rec, _, rfl⟩ := List.mem_map.1 h
      simp [record_cells]

/-- Inserting into a list permutes consing onto it. -/
theorem insertLe_perm {α : Type} (le : α → α → Bool) (a : α) (l : List α) :
    (insertLe le a l).Perm (a :: l) := by
  induction l with
  | nil => simp [insertLe]
  | cons b bs ih =>
      rw [insertLe]
      by_cases h : le a b
      · simp [h]
      · simp only [if_neg h]
        exact (ih.cons b).trans (List.Perm.swap a b bs)

/-- Sorting permutes the list. -/
theorem sortBy_perm {α : Type} (le : α → α → Bool) (l : List α) :
    (sortBy le l).Perm l := by
  induction l with
  | nil => rfl
  | cons a l ih => exact (insertLe_perm le a (sortBy le l)).trans (ih.cons a)

/-- Insertion preserves pairwise sortedness (for a total transitive
comparison). -/
theorem insertLe_pairwise {α : Type} {le : α → α → Bool}
    (htrans : ∀ a b c, le a b = true → le b c = true → le a c = true)
    (htotal : ∀ a b, le a b = true ∨ le b a = true)
    (a : α) (l : List α) (hl : l.Pairwise fun x y => le x y = true) :
    (insertLe le a l).Pairwise fun x y => le x y = true := by
  induction l with
  | nil => simp [insertLe]
  | cons b bs ih =>
      rw [insertLe]
      by_cases h : le a b = true
      · rw [if_pos h]
        refine List.Pairwise.cons ?_ hl
        intro x hx
        rcases List.mem_cons.1 hx with rfl | hx
        · exact h
        · exact htrans a b x h ((List.pairwise_cons.1 hl).1 x hx)
      · rw [if_neg h]
        have hba : le b a = true := (htotal a b).resolve_left h
        refine List.Pairwise.cons ?_ (ih (List.pairwise_cons.1 hl).2)
        intro x hx
        have hx' : x = a ∨ x ∈ bs := by
          simpa using (insertLe_perm le a bs).mem_iff.1 hx
        rcases hx' with rfl | hx'
        · exact hba
        · exact (List.pairwise_cons.1 hl).1 x hx'

/-- The sorted list is pairwise ordered (total transitive comparison). -/
theorem sortBy_pairwise {α : Type} {le : α → α → Bool}
    (htrans : ∀ a b c, le a b = true → le b c = true → le a c = true)
    (htotal : ∀ a b, le a b = true ∨ le b a = true) (l : List α) :
    (sortBy le l).Pairwise fun x y => le x y = true := by
  induction l with
  | nil => simp [sortBy]
  | cons a l ih => exact insertLe_pairwise htrans htotal a (sortBy le l) ih

/-- The first components of a grouped-sum view are exactly the distinct key
values, up to order. -/
theorem group_sum_keys_perm (key : UsageRecord → String) (val : UsageRecord → ℚ)
    (df : List UsageRecord) :
    ((group_sum key val df).map Prod.fst).Perm (df.map key).dedup := by
  rw [group_sum, List.map_map]
  have : (Prod.fst ∘ fun k => (k, ((df.filter fun r => key r = k).map val).sum)) = id := rfl
  rw [this, List.map_id]
  exact sortBy_perm strLe (df.map key).dedup

/-- C5: for a validated table whose month names all lie in the fixed
12-name calendar list, the monthly aggregation has exactly one row per
distinct month present in the input (its key list is a permutation of the
distinct input months; absent months are simply absent), its row count
equals the number of distinct months — in particular is at most 12 — and
its rows are strictly sorted by calendar month order. -/
theorem monthly_aggregation_props (df : List UsageRecord)
    (h : ∀ r ∈ df, r.month ∈ month_order) :
    ((monthly_data df).map Prod.fst).Perm (df.map (·.month)).dedup ∧
    (monthly_data df).length = (df.map (·.month)).dedup.length ∧
    (monthly_data df).length ≤ 12 ∧
    (monthly_data df).Pairwise fun a b => monthIndex a.1 < monthIndex b.1 := by
  have hperm : ((monthly_data df).map Prod.fst).Perm (df.map (·.month)).dedup := by
    refine (List.Perm.map Prod.fst ?_).trans (group_sum_keys_perm (·.month) (·.unitsConsumed) df)
    exact sortBy_perm monthLe _
  have hkeys : ∀ m ∈ (df.map (·.month)).dedup, m ∈ month_order := by
    intro m hm
    obtain ⟨r, hr, rfl⟩ := List.mem_map.1 (List.mem_dedup.1 hm)
    exact h r hr
  have hnodup : ((monthly_data df).map Prod.fst).Nodup :=
    hperm.nodup_iff.2 (List.nodup_dedup _)
  have hlen : (monthly_data df).length = (df.map (·.month)).dedup.length := by
    have := hperm.length_eq
    simpa using this
  have hle12 : (df.map (·.month)).dedup.length ≤ 12 := by
    have nd : (df.map (·.month)).dedup.Nodup := List.nodup_dedup _
    have hsub : (df.map (·.month)).dedup.toFinset ⊆ month_order.toFinset := by
      intro x hx
      rw [List.mem_toFinset] at hx ⊢
      exact hkeys x hx
    calc (df.map (·.month)).dedup.length
        = (df.map (·.month)).dedup.toFinset.card := (List.toFinset_card_of_nodup nd).symm
      _ ≤ month_order.toFinset.card := Finset.card_le_card hsub
      _ ≤ month_order.length := month_order.toFinset_card_le
      _ = 12 := rfl
  refine ⟨hperm, hlen, by omega, ?_⟩
  have hsorted : (monthly_data df).Pairwise fun a b => monthLe a b = true :=
    sortBy_pairwise (fun a b c hab hbc => by
        simp only [monthLe, decide_eq_true_eq] at hab hbc ⊢
        omega)
      (fun a b => by
        simp only [monthLe, decide_eq_true_eq]
        omega) _
  have hne : (monthly_data df).Pairwise fun a b => a.1 ≠ b.1 := by
    have := List.pairwise_map.1 hnodup
    exact this.imp fun hab => hab
  have hmem : ∀ p ∈ monthly_data df, p.1 ∈ month_order := by
    intro p hp
    exact hkeys p.1 (hperm.mem_iff.1 (List.mem_map_of_mem Prod.fst hp))
  refine ((hsorted.and hne).imp_of_mem ?_)
  intro a b ha hb hab
  have hle : monthIndex a.1 ≤ monthIndex b.1 := by
    have := hab.1
    simpa [monthLe] using this
  have hne' : monthIndex a.1 ≠ monthIndex b.1 := by
    intro heq
    exact hab.2 ((List.indexOf_inj (hmem a ha) (hmem b hb)).1 heq)
  omega

/-- Witness for C5 at the two-row example table. -/
theorem monthly_aggregation_props_witness :
    ((monthly_data example_table).map Prod.fst).Perm
      (example_table.map (·.month)).dedup ∧
    (monthly_data example_table).length =
      (example_table.map (·.month)).dedup.length ∧
    (monthly_data example_table).length ≤ 12 ∧
    (monthly_data example_table).Pairwise
      fun a b => monthIndex a.1 < monthIndex b.1 :=
  monthly_aggregation_props example_table (by decide)

/-- C9: a report-generation pass (KPI computation, monthly and departmental
aggregation, CSV serialization, summary-report assembly) leaves the
underlying table unchanged, each aggregate being a freshly derived view of
it, and rerunning the pass on the resulting table reproduces the same
state (the pass is an idempotent pure derivation). -/
theorem generate_report_frame (df : List UsageRecord) :
    (generate_report df).df = df ∧
    generate_report ((generate_report df).df) = generate_report df ∧
    (generate_report df).kpis = compute_kpis df ∧
    (generate_report df).monthly = monthly_data df ∧
    (generate_report df).monthlyCost = monthly_cost df ∧
    (generate_report df).unitData = unit_data df ∧
    (generate_report df).unitCost = unit_cost df ∧
    (generate_report df).csv = df_to_csv df :=
  ⟨rfl, rfl, rfl, rfl, rfl, rfl, rfl, rfl⟩
